import Mathlib

/-!
Verification of the router-manager-tray core against its specification.

The Rust sources embedded here are:
  * `router-core/src/lib.rs` — `KeeneticRouter` (address normalization,
    login handshake, client-table reconciliation, payload builders),
    `client_is_online`, `extract_host`, `ip_in_networks`;
  * `router-tray/src-tauri/src/main.rs` — `encode_mac`, `decode_mac`,
    `build_active_state`, `build_tray_menu`.

HTTP transport, the cookie jar and the operating-system interface are
abstracted into explicit environment records; everything else is a direct
translation of the Rust functions, with machine integers modelled as `Nat`
reduced modulo `2 ^ 32` where the Rust code uses wrapping 32-bit
arithmetic (inside MD5/SHA-256).
-/

/-! ## JSON values (model of `serde_json::Value`) -/

/-- Model of `serde_json::Value`.  Objects are association lists in row
order; `serde_json`'s map has unique keys, which lookup-based access makes
irrelevant here.  Numbers are irrelevant to every claim and are kept as
`Int`. -/
inductive Value where
  | null : Value
  | bool (b : Bool) : Value
  | num (n : Int) : Value
  | str (s : String) : Value
  | arr (xs : List Value) : Value
  | obj (fields : List (String × Value)) : Value

/-- `Value::get(key)`: field lookup on an object, `None` on anything else. -/
def Value.get : Value → String → Option Value
  | .obj fields, key => fields.lookup key
  | _, _ => none

/-- `Value::as_str`. -/
def Value.asStr : Value → Option String
  | .str s => some s
  | _ => none

/-- `Value::as_bool`. -/
def Value.asBool : Value → Option Bool
  | .bool b => some b
  | _ => none

/-- `Value::is_null`. -/
def Value.isNull : Value → Bool
  | .null => true
  | _ => false

/-! ## Lower-casing (model of Rust `str::to_lowercase`)

Rust's `to_lowercase` performs Unicode case mapping; the data it is applied
to here (MAC addresses, interface names) is ASCII, so the ASCII case map is
the faithful model on the relevant domain. -/

/-- ASCII lower-casing of one character. -/
def charToLower (c : Char) : Char :=
  if 65 ≤ c.toNat ∧ c.toNat ≤ 90 then Char.ofNat (c.toNat + 32) else c

/-- ASCII lower-casing of a string (model of Rust `str::to_lowercase`). -/
def strToLower (s : String) : String :=
  String.mk (s.data.map charToLower)

/-! ## Client records and the reconciler (`KeeneticRouter::get_online_clients`) -/

/-- `ClientInfo` from `router-core/src/lib.rs`. -/
structure ClientInfo where
  name : Option String
  ip : Option String
  mac : String
  policy : Option String
  deny : Bool
  raw : Value

/-- The fresh entry inserted by `map.entry(mac).or_insert(...)`. -/
def freshClient (mac : String) : ClientInfo :=
  { name := none, ip := none, mac := mac, policy := none, deny := false,
    raw := .null }

/-- The MAC key a raw row is grouped under: the `mac` field as a string,
defaulting to `""`, lower-cased.  (`item.get("mac").and_then(as_str).unwrap_or_default().to_lowercase()`.) -/
def rowMac (item : Value) : String :=
  strToLower (((item.get "mac").bind Value.asStr).getD "")

/-- The `name` string a row offers (`item.get("name").and_then(as_str)`). -/
def nameOf (item : Value) : Option String := (item.get "name").bind Value.asStr

/-- The `ip` string a row offers. -/
def ipOf (item : Value) : Option String := (item.get "ip").bind Value.asStr

/-- The `policy` string a row offers. -/
def policyOf (item : Value) : Option String :=
  (item.get "policy").bind Value.asStr

/-- The `deny` boolean a row offers (`item.get("deny").and_then(as_bool)`). -/
def denyOf (item : Value) : Option Bool := (item.get "deny").bind Value.asBool

/-- The per-row field updates applied to the canonical entry inside the
loop of `get_online_clients`. -/
def mergeRow (entry : ClientInfo) (item : Value) : ClientInfo :=
  let entry := if entry.name.isNone
    then { entry with name := nameOf item } else entry
  let entry := if entry.ip.isNone
    then { entry with ip := ipOf item } else entry
  let entry := if entry.policy.isNone
    then { entry with policy := policyOf item } else entry
  let entry := match denyOf item with
    | some deny => { entry with deny := deny }
    | none => entry
  if !item.isNull then { entry with raw := item } else entry

/-- Replace the value stored under `mac`, or append a new binding
(model of the `HashMap` entry update; binding order is irrelevant to the
claims, only lookup). -/
def updateEntry : List (String × ClientInfo) → String → ClientInfo →
    List (String × ClientInfo)
  | [], mac, e => [(mac, e)]
  | (k, v) :: rest, mac, e =>
    if k = mac then (k, e) :: rest else (k, v) :: updateEntry rest mac e

/-- One iteration of the row loop in `get_online_clients`. -/
def reconcileStep (m : List (String × ClientInfo)) (item : Value) :
    List (String × ClientInfo) :=
  let mac := rowMac item
  if mac = "" then m
  else
    let entry := ((m.lookup mac).getD (freshClient mac))
    updateEntry m mac (mergeRow entry item)

/-- The pure core of `KeeneticRouter::get_online_clients`: reconcile the
raw rows returned by `rci/show/ip/hotspot/host` into one canonical record
per lower-cased MAC.  The `HashMap` is modelled as an association list;
`into_values()` returns the stored records (in unspecified order in Rust,
here in first-insertion order). -/
def get_online_clients (rows : List Value) : List (String × ClientInfo) :=
  rows.foldl reconcileStep []

/-- The rows of `rows` that are grouped under the key `mac`. -/
def macGroup (rows : List Value) (mac : String) : List Value :=
  rows.filter (fun item => rowMac item == mac)

/-! ### Projections of one merge step -/

lemma mergeRow_mac (e : ClientInfo) (item : Value) :
    (mergeRow e item).mac = e.mac := by
  simp only [mergeRow]
  repeat' split
  all_goals rfl

lemma mergeRow_name (e : ClientInfo) (item : Value) :
    (mergeRow e item).name = if e.name.isNone then nameOf item else e.name := by
  simp only [mergeRow]
  repeat' split
  all_goals simp_all

lemma mergeRow_ip (e : ClientInfo) (item : Value) :
    (mergeRow e item).ip = if e.ip.isNone then ipOf item else e.ip := by
  simp only [mergeRow]
  repeat' split
  all_goals simp_all

lemma mergeRow_policy (e : ClientInfo) (item : Value) :
    (mergeRow e item).policy =
      if e.policy.isNone then policyOf item else e.policy := by
  simp only [mergeRow]
  repeat' split
  all_goals simp_all

lemma mergeRow_deny (e : ClientInfo) (item : Value) :
    (mergeRow e item).deny = (denyOf item).getD e.deny := by
  simp only [mergeRow]
  repeat' split
  all_goals simp_all

lemma mergeRow_raw (e : ClientInfo) (item : Value) :
    (mergeRow e item).raw = if item.isNull then e.raw else item := by
  simp only [mergeRow]
  repeat' split
  all_goals simp_all

/-! ### Folding the merge over a group, field by field -/

lemma foldl_if_isNone {α β : Type} (f : α → Option β) (l : List α) :
    ∀ o : Option β, l.foldl (fun o a => if o.isNone then f a else o) o =
      if o.isNone then (l.filterMap f).head? else o := by
  induction l with
  | nil => intro o; cases o <;> simp
  | cons a l ih =>
    intro o
    cases o with
    | none =>
      simp only [List.foldl_cons, Option.isNone_none, if_true, ih,
        List.filterMap_cons]
      cases h : f a <;> simp
    | some v => simp [ih]

lemma foldl_getD {α β : Type} (g : α → Option β) (l : List α) :
    ∀ d : β, l.foldl (fun d a => (g a).getD d) d =
      ((l.filterMap g).getLast?).getD d := by
  induction l with
  | nil => intro d; simp
  | cons a l ih =>
    intro d
    simp only [List.foldl_cons, ih, List.filterMap_cons]
    cases h : g a with
    | none => simp
    | some b => simp [List.getLast?_cons]

lemma foldl_lastNonNull (l : List Value) :
    ∀ r : Value, l.foldl (fun r item => if item.isNull then r else item) r =
      ((l.filter fun v => !v.isNull).getLast?).getD r := by
  induction l with
  | nil => intro r; simp
  | cons a l ih =>
    intro r
    simp only [List.foldl_cons, ih, List.filter_cons]
    cases h : a.isNull with
    | true => simp
    | false => simp [List.getLast?_cons]

lemma foldl_mergeRow_mac (l : List Value) :
    ∀ e : ClientInfo, (l.foldl mergeRow e).mac = e.mac := by
  induction l with
  | nil => intro e; rfl
  | cons a l ih => intro e; simp [ih, mergeRow_mac]

lemma foldl_mergeRow_name (l : List Value) :
    ∀ e : ClientInfo, (l.foldl mergeRow e).name =
      l.foldl (fun o a => if o.isNone then nameOf a else o) e.name := by
  induction l with
  | nil => intro e; rfl
  | cons a l ih => intro e; simp [ih, mergeRow_name]

lemma foldl_mergeRow_ip (l : List Value) :
    ∀ e : ClientInfo, (l.foldl mergeRow e).ip =
      l.foldl (fun o a => if o.isNone then ipOf a else o) e.ip := by
  induction l with
  | nil => intro e; rfl
  | cons a l ih => intro e; simp [ih, mergeRow_ip]

lemma foldl_mergeRow_policy (l : List Value) :
    ∀ e : ClientInfo, (l.foldl mergeRow e).policy =
      l.foldl (fun o a => if o.isNone then policyOf a else o) e.policy := by
  induction l with
  | nil => intro e; rfl
  | cons a l ih => intro e; simp [ih, mergeRow_policy]

lemma foldl_mergeRow_deny (l : List Value) :
    ∀ e : ClientInfo, (l.foldl mergeRow e).deny =
      l.foldl (fun d a => (denyOf a).getD d) e.deny := by
  induction l with
  | nil => intro e; rfl
  | cons a l ih => intro e; simp [ih, mergeRow_deny]

lemma foldl_mergeRow_raw (l : List Value) :
    ∀ e : ClientInfo, (l.foldl mergeRow e).raw =
      l.foldl (fun r a => if a.isNull then r else a) e.raw := by
  induction l with
  | nil => intro e; rfl
  | cons a l ih => intro e; simp [ih, mergeRow_raw]

/-! ### Lookup characterization of the reconciling fold -/

lemma lookup_cons_pair (k a : String) (v : ClientInfo)
    (l : List (String × ClientInfo)) :
    List.lookup a ((k, v) :: l) = if a = k then some v else List.lookup a l := by
  simp only [List.lookup]
  split <;> simp_all

lemma mem_of_lookup_eq_some {m : List (String × ClientInfo)} {k : String}
    {v : ClientInfo} (h : m.lookup k = some v) : (k, v) ∈ m := by
  induction m with
  | nil => simp [List.lookup] at h
  | cons p m ih =>
    obtain ⟨k', v'⟩ := p
    rw [lookup_cons_pair] at h
    by_cases hk : k = k'
    · rw [if_pos hk] at h
      injection h with h
      subst hk
      subst h
      exact List.mem_cons_self _ _
    · rw [if_neg hk] at h
      exact List.mem_cons_of_mem _ (ih h)

lemma lookup_updateEntry (m : List (String × ClientInfo)) (mac k : String)
    (e : ClientInfo) :
    (updateEntry m mac e).lookup k = if k = mac then some e else m.lookup k := by
  induction m with
  | nil => simp [updateEntry, lookup_cons_pair]
  | cons p m ih =>
    obtain ⟨k', v'⟩ := p
    simp only [updateEntry]
    by_cases h : k' = mac
    · subst h
      rw [if_pos rfl, lookup_cons_pair, lookup_cons_pair]
      by_cases hk : k = k' <;> simp [hk]
    · rw [if_neg h, lookup_cons_pair, lookup_cons_pair, ih]
      by_cases hk : k = k' <;> by_cases hm : k = mac <;> simp_all

lemma lookup_reconcileStep (m : List (String × ClientInfo)) (item : Value)
    (k : String) :
    (reconcileStep m item).lookup k =
      if rowMac item = k ∧ k ≠ "" then
        some (mergeRow ((m.lookup k).getD (freshClient k)) item)
      else m.lookup k := by
  unfold reconcileStep
  by_cases h0 : rowMac item = ""
  · rw [if_pos h0, if_neg]
    rintro ⟨h1, h2⟩
    exact h2 (h1 ▸ h0)
  · rw [if_neg h0, lookup_updateEntry]
    by_cases hk : k = rowMac item
    · subst hk
      rw [if_pos rfl, if_pos ⟨rfl, h0⟩]
    · rw [if_neg hk, if_neg]
      rintro ⟨h1, _⟩
      exact hk h1.symm

lemma lookup_foldl_reconcileStep (rows : List Value) :
    ∀ (m : List (String × ClientInfo)) (k : String), k ≠ "" →
      (rows.foldl reconcileStep m).lookup k =
        (macGroup rows k).foldl
          (fun o item => some (mergeRow (o.getD (freshClient k)) item))
          (m.lookup k) := by
  induction rows with
  | nil => intro m k _; rfl
  | cons r rows ih =>
    intro m k hk
    rw [List.foldl_cons, ih _ k hk]
    unfold macGroup
    rw [List.filter_cons]
    by_cases hr : rowMac r = k
    · have hb : (rowMac r == k) = true := beq_iff_eq.mpr hr
      rw [hb, if_pos rfl, List.foldl_cons, lookup_reconcileStep,
        if_pos ⟨hr, hk⟩]
    · have hb : (rowMac r == k) = false := beq_eq_false_iff_ne.mpr hr
      rw [hb]
      simp only [Bool.false_eq_true, if_false]
      rw [lookup_reconcileStep, if_neg (fun h1 => hr h1.1)]

lemma foldl_some_merge (k : String) (l : List Value) :
    ∀ e : ClientInfo,
      l.foldl (fun o item => some (mergeRow (o.getD (freshClient k)) item))
        (some e) = some (l.foldl mergeRow e) := by
  induction l with
  | nil => intro e; rfl
  | cons a l ih => intro e; simp only [List.foldl_cons, Option.getD_some, ih]

lemma get_online_clients_lookup (rows : List Value) (k : String) (hk : k ≠ "") :
    (get_online_clients rows).lookup k =
      match macGroup rows k with
      | [] => none
      | g :: gs => some ((g :: gs).foldl mergeRow (freshClient k)) := by
  unfold get_online_clients
  rw [lookup_foldl_reconcileStep rows [] k hk]
  cases hg : macGroup rows k with
  | nil => rfl
  | cons g gs =>
    rw [List.foldl_cons]
    show (gs.foldl _ (some (mergeRow (freshClient k) g))) = _
    rw [foldl_some_merge]
    rfl

lemma get_online_clients_lookup_empty_key (rows : List Value) :
    (get_online_clients rows).lookup "" = none := by
  unfold get_online_clients
  suffices H : ∀ m : List (String × ClientInfo), m.lookup "" = none →
      (rows.foldl reconcileStep m).lookup "" = none by
    exact H [] rfl
  induction rows with
  | nil => intro m hm; exact hm
  | cons r rows ih =>
    intro m hm
    rw [List.foldl_cons]
    refine ih _ ?_
    rw [lookup_reconcileStep, if_neg, hm]
    rintro ⟨_, h2⟩
    exact h2 rfl

/-! ### Lower-casing is idempotent -/

lemma charToLower_toNat_of_upper {c : Char}
    (h : 65 ≤ c.toNat ∧ c.toNat ≤ 90) :
    (charToLower c).toNat = c.toNat + 32 := by
  have hv : (c.toNat + 32).isValidChar := Or.inl (by omega)
  unfold charToLower
  rw [if_pos h]
  simp only [Char.ofNat]
  rw [dif_pos hv]
  rfl

lemma charToLower_eq_self {c : Char}
    (h : ¬(65 ≤ c.toNat ∧ c.toNat ≤ 90)) : charToLower c = c := by
  unfold charToLower
  exact if_neg h

lemma charToLower_idem (c : Char) :
    charToLower (charToLower c) = charToLower c := by
  by_cases h : 65 ≤ c.toNat ∧ c.toNat ≤ 90
  · have ht := charToLower_toNat_of_upper h
    exact charToLower_eq_self (by omega)
  · rw [charToLower_eq_self h, charToLower_eq_self h]

lemma strToLower_idem (s : String) :
    strToLower (strToLower s) = strToLower s := by
  unfold strToLower
  have hdata : (String.mk (s.data.map charToLower)).data
      = s.data.map charToLower := rfl
  rw [hdata, List.map_map]
  have : charToLower ∘ charToLower = charToLower := funext charToLower_idem
  rw [this]

/-! ### Structural invariants of the reconciler -/

lemma mem_updateEntry (m : List (String × ClientInfo)) (mac : String)
    (e : ClientInfo) :
    ∀ p ∈ updateEntry m mac e, p ∈ m ∨ (p.1 = mac ∧ p.2 = e) := by
  induction m with
  | nil =>
    intro p hp
    simp only [updateEntry, List.mem_singleton] at hp
    right
    rw [hp]
    exact ⟨rfl, rfl⟩
  | cons q m ih =>
    intro p hp
    obtain ⟨k', v'⟩ := q
    simp only [updateEntry] at hp
    by_cases h : k' = mac
    · rw [if_pos h] at hp
      rcases List.mem_cons.mp hp with h1 | h1
      · right
        rw [h1]
        exact ⟨h, rfl⟩
      · left
        exact List.mem_cons_of_mem _ h1
    · rw [if_neg h] at hp
      rcases List.mem_cons.mp hp with h1 | h1
      · left
        rw [h1]
        exact List.mem_cons_self _ _
      · rcases ih p h1 with h2 | h2
        · left
          exact List.mem_cons_of_mem _ h2
        · right
          exact h2

lemma keys_updateEntry (m : List (String × ClientInfo)) (mac : String)
    (e : ClientInfo) :
    (updateEntry m mac e).map Prod.fst =
      if mac ∈ m.map Prod.fst then m.map Prod.fst
      else m.map Prod.fst ++ [mac] := by
  induction m with
  | nil => simp [updateEntry]
  | cons q m ih =>
    obtain ⟨k', v'⟩ := q
    simp only [updateEntry]
    by_cases h : k' = mac
    · rw [if_pos h]
      simp [h]
    · rw [if_neg h]
      simp only [List.map_cons, ih]
      have hne : ¬mac = k' := fun hc => h hc.symm
      by_cases hm : mac ∈ m.map Prod.fst
      · simp [hm, hne]
      · simp [hm, hne]

lemma nodup_keys_updateEntry {m : List (String × ClientInfo)}
    (hm : (m.map Prod.fst).Nodup) (mac : String) (e : ClientInfo) :
    ((updateEntry m mac e).map Prod.fst).Nodup := by
  rw [keys_updateEntry]
  by_cases h : mac ∈ m.map Prod.fst
  · rwa [if_pos h]
  · rw [if_neg h]
    simp [List.nodup_append, hm, h]

lemma reconcileStep_inv {m : List (String × ClientInfo)} (item : Value)
    (hm : (m.map Prod.fst).Nodup)
    (hv : ∀ p ∈ m, p.2.mac = p.1 ∧ p.1 ≠ "" ∧ strToLower p.1 = p.1) :
    ((reconcileStep m item).map Prod.fst).Nodup ∧
      ∀ p ∈ reconcileStep m item,
        p.2.mac = p.1 ∧ p.1 ≠ "" ∧ strToLower p.1 = p.1 := by
  unfold reconcileStep
  by_cases h0 : rowMac item = ""
  · rw [if_pos h0]
    exact ⟨hm, hv⟩
  · rw [if_neg h0]
    refine ⟨nodup_keys_updateEntry hm _ _, ?_⟩
    intro p hp
    rcases mem_updateEntry _ _ _ p hp with h1 | ⟨h1, h2⟩
    · exact hv p h1
    · refine ⟨?_, ?_, ?_⟩
      · rw [h1, h2, mergeRow_mac]
        cases hl : m.lookup (rowMac item) with
        | none => rfl
        | some v =>
          simp only [Option.getD_some]
          exact (hv _ (mem_of_lookup_eq_some hl)).1
      · rw [h1]
        exact h0
      · rw [h1]
        exact strToLower_idem _

lemma foldl_reconcileStep_inv (rows : List Value) :
    ∀ m : List (String × ClientInfo), (m.map Prod.fst).Nodup →
      (∀ p ∈ m, p.2.mac = p.1 ∧ p.1 ≠ "" ∧ strToLower p.1 = p.1) →
      ((rows.foldl reconcileStep m).map Prod.fst).Nodup ∧
        ∀ p ∈ rows.foldl reconcileStep m,
          p.2.mac = p.1 ∧ p.1 ≠ "" ∧ strToLower p.1 = p.1 := by
  induction rows with
  | nil => intro m hm hv; exact ⟨hm, hv⟩
  | cons r rows ih =>
    intro m hm hv
    rw [List.foldl_cons]
    obtain ⟨hm', hv'⟩ := reconcileStep_inv r hm hv
    exact ih _ hm' hv'

lemma foldl_reconcileStep_keys_origin (rows : List Value) :
    ∀ (m : List (String × ClientInfo)) (p : String × ClientInfo),
      p ∈ rows.foldl reconcileStep m →
      p.1 ∈ m.map Prod.fst ∨ ∃ row ∈ rows, rowMac row = p.1 := by
  induction rows with
  | nil =>
    intro m p hp
    left
    exact List.mem_map_of_mem Prod.fst hp
  | cons r rows ih =>
    intro m p hp
    rw [List.foldl_cons] at hp
    rcases ih _ p hp with h | ⟨row, hrow, hmac⟩
    · unfold reconcileStep at h
      by_cases h0 : rowMac r = ""
      · rw [if_pos h0] at h
        left
        exact h
      · rw [if_neg h0, keys_updateEntry] at h
        by_cases hmem : rowMac r ∈ m.map Prod.fst
        · rw [if_pos hmem] at h
          left
          exact h
        · rw [if_neg hmem] at h
          rcases List.mem_append.mp h with h1 | h1
          · left
            exact h1
          · right
            exact ⟨r, List.mem_cons_self _ _, (List.mem_singleton.mp h1).symm⟩
    · right
      exact ⟨row, List.mem_cons_of_mem _ hrow, hmac⟩

lemma foldl_reconcileStep_filter (rows : List Value) :
    ∀ m : List (String × ClientInfo),
      rows.foldl reconcileStep m =
        (rows.filter fun r => rowMac r != "").foldl reconcileStep m := by
  induction rows with
  | nil => intro m; rfl
  | cons r rows ih =>
    intro m
    rw [List.foldl_cons, List.filter_cons]
    by_cases h : rowMac r = ""
    · have hstep : reconcileStep m r = m := by
        unfold reconcileStep
        rw [if_pos h]
      simp only [h, bne_self_eq_false, Bool.false_eq_true, if_false, hstep]
      exact ih m
    · have hb : (rowMac r != "") = true := bne_iff_ne.mpr h
      rw [hb, if_pos rfl, List.foldl_cons]
      exact ih _

/-! ## Claim C1 and C5 theorems -/

/-- C1: within each MAC group of the raw rows given to `get_online_clients`,
the merged record keeps the first string value seen for `name`, `ip` and
`policy` (first-seen-wins: later rows never override, but do fill an unset
field), `deny` is overwritten by every later row whose `deny` field is a
boolean (last-seen-wins), and the stored raw payload is the latest non-null
row of the group. -/
theorem C1_reconcile_merge_semantics (rows : List Value) (mac : String)
    (rec : ClientInfo)
    (h : (get_online_clients rows).lookup mac = some rec) :
    rec.name = ((macGroup rows mac).filterMap nameOf).head? ∧
    rec.ip = ((macGroup rows mac).filterMap ipOf).head? ∧
    rec.policy = ((macGroup rows mac).filterMap policyOf).head? ∧
    rec.deny = (((macGroup rows mac).filterMap denyOf).getLast?).getD false ∧
    rec.raw =
      (((macGroup rows mac).filter fun v => !v.isNull).getLast?).getD .null := by
  have hmac : mac ≠ "" := by
    intro he
    rw [he, get_online_clients_lookup_empty_key] at h
    exact Option.noConfusion h
  rw [get_online_clients_lookup rows mac hmac] at h
  cases hg : macGroup rows mac with
  | nil =>
    rw [hg] at h
    exact Option.noConfusion h
  | cons g gs =>
    rw [hg] at h
    injection h with h
    subst h
    refine ⟨?_, ?_, ?_, ?_, ?_⟩
    · rw [foldl_mergeRow_name, show (freshClient mac).name = none from rfl,
        foldl_if_isNone]
      simp
    · rw [foldl_mergeRow_ip, show (freshClient mac).ip = none from rfl,
        foldl_if_isNone]
      simp
    · rw [foldl_mergeRow_policy, show (freshClient mac).policy = none from rfl,
        foldl_if_isNone]
      simp
    · rw [foldl_mergeRow_deny, show (freshClient mac).deny = false from rfl,
        foldl_getD]
    · rw [foldl_mergeRow_raw, show (freshClient mac).raw = Value.null from rfl,
        foldl_lastNonNull]

/-- The spec's own first-seen/last-seen example: two rows for one MAC
(the first upper-cased with only an `ip`, the second with `name`, a
conflicting `ip`, and `deny: true`). -/
def c1Rows : List Value :=
  [ .obj [("mac", .str "AA:BB:CC:DD:EE:FF"), ("ip", .str "10.0.0.5")],
    .obj [("mac", .str "aa:bb:cc:dd:ee:ff"), ("name", .str "Phone"),
          ("ip", .str "10.0.0.9"), ("deny", .bool true)] ]

/-- The record `get_online_clients c1Rows` produces for the example MAC. -/
def c1Rec : ClientInfo :=
  { name := some "Phone", ip := some "10.0.0.5", mac := "aa:bb:cc:dd:ee:ff",
    policy := none, deny := true,
    raw := .obj [("mac", .str "aa:bb:cc:dd:ee:ff"), ("name", .str "Phone"),
                 ("ip", .str "10.0.0.9"), ("deny", .bool true)] }

/-- Witness for C1 at the spec's example: ip keeps the first row's
`10.0.0.5`, name falls through to `"Phone"`, deny tracks the last row. -/
theorem C1_reconcile_merge_semantics_witness :
    (get_online_clients c1Rows).lookup "aa:bb:cc:dd:ee:ff" = some c1Rec ∧
    (c1Rec.name = ((macGroup c1Rows "aa:bb:cc:dd:ee:ff").filterMap nameOf).head? ∧
     c1Rec.ip = ((macGroup c1Rows "aa:bb:cc:dd:ee:ff").filterMap ipOf).head? ∧
     c1Rec.policy =
       ((macGroup c1Rows "aa:bb:cc:dd:ee:ff").filterMap policyOf).head? ∧
     c1Rec.deny =
       (((macGroup c1Rows "aa:bb:cc:dd:ee:ff").filterMap denyOf).getLast?).getD
         false ∧
     c1Rec.raw =
       (((macGroup c1Rows "aa:bb:cc:dd:ee:ff").filter
           fun v => !v.isNull).getLast?).getD .null) :=
  ⟨rfl, C1_reconcile_merge_semantics c1Rows "aa:bb:cc:dd:ee:ff" c1Rec rfl⟩

/-- C5: `get_online_clients` discards rows with a missing or empty `mac`,
keys every kept row by its lower-cased MAC, stores that lower-cased MAC in
the record, and yields at most one record per distinct lower-cased MAC. -/
theorem C5_reconcile_dedup_lowercase (rows : List Value) :
    ((get_online_clients rows).map Prod.fst).Nodup ∧
    (∀ p ∈ get_online_clients rows,
      p.2.mac = p.1 ∧ p.1 ≠ "" ∧ strToLower p.1 = p.1 ∧
        ∃ row ∈ rows, rowMac row = p.1) ∧
    get_online_clients rows =
      get_online_clients (rows.filter fun r => rowMac r != "") := by
  obtain ⟨hnodup, hv⟩ :=
    foldl_reconcileStep_inv rows [] (by simp) (by simp)
  refine ⟨hnodup, ?_, foldl_reconcileStep_filter rows []⟩
  intro p hp
  obtain ⟨h1, h2, h3⟩ := hv p hp
  refine ⟨h1, h2, h3, ?_⟩
  rcases foldl_reconcileStep_keys_origin rows [] p hp with h | h
  · simp at h
  · exact h

/-- Witness for C5: on the spec's example rows the table has the single
lower-cased key `aa:bb:cc:dd:ee:ff`, which satisfies every invariant. -/
theorem C5_reconcile_dedup_lowercase_witness :
    ("aa:bb:cc:dd:ee:ff", c1Rec) ∈ get_online_clients c1Rows ∧
    (c1Rec.mac = "aa:bb:cc:dd:ee:ff" ∧ "aa:bb:cc:dd:ee:ff" ≠ "" ∧
      strToLower "aa:bb:cc:dd:ee:ff" = "aa:bb:cc:dd:ee:ff" ∧
      ∃ row ∈ c1Rows, rowMac row = "aa:bb:cc:dd:ee:ff") := by
  have hmem : ("aa:bb:cc:dd:ee:ff", c1Rec) ∈ get_online_clients c1Rows := by
    rw [show get_online_clients c1Rows = [("aa:bb:cc:dd:ee:ff", c1Rec)]
      from rfl]
    exact List.mem_singleton.mpr rfl
  exact ⟨hmem, (C5_reconcile_dedup_lowercase c1Rows).2.1 _ hmem⟩

/-! ## Online derivation (`client_is_online`) — claim C6 -/

/-- `client_is_online` from `router-core/src/lib.rs`: top-level `link`
equal to `"up"`, or nested `mws.link` equal to `"up"`. -/
def client_is_online (client : ClientInfo) : Bool :=
  let link := (client.raw.get "link").bind Value.asStr
  if link = some "up" then true
  else
    let mws := client.raw.get "mws"
    let mws_link := (mws.bind (fun v => v.get "link")).bind Value.asStr
    mws_link = some "up"

/-- C6: a record is online iff its raw payload's top-level `link` is the
string `"up"` or its nested `mws.link` is `"up"`; any other value or the
absence of both fields is offline.  In particular
`{"link":"down","mws":{"link":"up"}}` is online and `{"link":"down"}` is
offline. -/
theorem C6_client_is_online_iff :
    (∀ c : ClientInfo, client_is_online c = true ↔
      ((c.raw.get "link").bind Value.asStr = some "up" ∨
        ((c.raw.get "mws").bind (fun v => v.get "link")).bind Value.asStr =
          some "up")) ∧
    client_is_online { freshClient "m" with
      raw := .obj [("link", .str "down"),
                   ("mws", .obj [("link", .str "up")])] } = true ∧
    client_is_online { freshClient "m" with
      raw := .obj [("link", .str "down")] } = false := by
  refine ⟨?_, rfl, rfl⟩
  intro c
  unfold client_is_online
  by_cases h : (c.raw.get "link").bind Value.asStr = some "up"
  · simp [h]
  · simp [h]

/-! ## Address normalization (`KeeneticRouter::new`) — claim C7 -/

/-- ASCII model of Rust `char::is_whitespace` (the addresses involved are
ASCII). -/
def isRustWhitespace (c : Char) : Bool :=
  c = ' ' ∨ c = '\t' ∨ c = '\n' ∨ c = '\r'

/-- Model of Rust `str::trim`: drop whitespace from both ends. -/
def rustTrim (s : String) : String :=
  String.mk
    (((s.data.dropWhile isRustWhitespace).reverse.dropWhile
      isRustWhitespace).reverse)

/-- The `base_url` computed by `KeeneticRouter::new`: trim, and when the
result does not start with `"http"`, pop one trailing `'/'` and prepend
`"http://"`. -/
def newBaseUrl (address : String) : String :=
  let base := rustTrim address
  if "http".data.isPrefixOf base.data then base
  else
    let base := if base.data.getLast? = some '/' then
        String.mk base.data.dropLast
      else base
    "http://" ++ base

/-- C7 counterexample: the trailing slash is NOT stripped from an address
that already carries a scheme — `"http://192.168.1.1/"` keeps its slash,
contradicting the claim's "a trailing slash is stripped from every
address, including one that already has a scheme". -/
theorem C7_normalize_address_counterexample :
    newBaseUrl "http://192.168.1.1/" = "http://192.168.1.1/" ∧
    ¬newBaseUrl "http://192.168.1.1/" = "http://192.168.1.1" :=
  ⟨rfl, by decide⟩

/-- C7 (amended): construction trims the address; if the trimmed address
already starts with `"http"` it is used unchanged (no prefix added, no
slash stripped), otherwise one trailing slash is removed and `"http://"`
is prepended.  The spec's two examples hold as stated. -/
theorem C7_normalize_address_amended :
    (∀ a : String, ("http".data.isPrefixOf (rustTrim a).data) = true →
      newBaseUrl a = rustTrim a) ∧
    (∀ a : String, ("http".data.isPrefixOf (rustTrim a).data) = false →
      newBaseUrl a = "http://" ++
        (if (rustTrim a).data.getLast? = some '/' then
          String.mk (rustTrim a).data.dropLast
        else rustTrim a)) ∧
    newBaseUrl "192.168.1.1/" = "http://192.168.1.1" ∧
    newBaseUrl "https://my.router.com" = "https://my.router.com" := by
  refine ⟨?_, ?_, rfl, rfl⟩
  · intro a h
    unfold newBaseUrl
    rw [if_pos h]
  · intro a h
    unfold newBaseUrl
    rw [if_neg (by rw [h]; exact Bool.false_ne_true)]

/-- Witness for the amended C7 at concrete inputs: a scheme'd address with
a trailing slash passes through unchanged; a bare host with surrounding
whitespace and a trailing slash is trimmed, stripped and prefixed. -/
theorem C7_normalize_address_amended_witness :
    ("http".data.isPrefixOf (rustTrim "https://my.router.com/").data) = true ∧
    newBaseUrl "https://my.router.com/" = rustTrim "https://my.router.com/" ∧
    ("http".data.isPrefixOf (rustTrim " 192.168.1.1/ ").data) = false ∧
    newBaseUrl " 192.168.1.1/ " = "http://192.168.1.1" :=
  ⟨rfl, C7_normalize_address_amended.1 "https://my.router.com/" rfl, rfl,
    C7_normalize_address_amended.2.1 " 192.168.1.1/ " rfl⟩

/-! ## Tray menu-id MAC codec (`encode_mac` / `decode_mac`) — claim C10 -/

/-- `encode_mac` from `main.rs`: `mac.replace(':', "")` — remove every
colon. -/
def encode_mac (mac : String) : String :=
  String.mk (mac.data.filter (fun c => c != ':'))

/-- One iteration of the character loop in `decode_mac`: push a colon
before every even-indexed character except the first, then the char. -/
def decodeStep (out : List Char) (p : Nat × Char) : List Char :=
  (if p.1 > 0 ∧ p.1 % 2 = 0 then out ++ [':'] else out) ++ [p.2]

/-- `decode_mac` from `main.rs`: drop colons, then re-insert a colon
before every even-indexed character after the first pair. -/
def decode_mac (value : String) : String :=
  let cleaned := value.data.filter (fun c => c != ':')
  String.mk (cleaned.enum.foldl decodeStep [])

/-- A canonical MAC string, as a char list, built from two-character
groups joined by single colons. -/
def macOfGroups : List (Char × Char) → List Char
  | [] => []
  | [g] => [g.1, g.2]
  | g :: h :: gs => g.1 :: g.2 :: ':' :: macOfGroups (h :: gs)

/-- Lower-case hexadecimal digit (`0`–`9`, `a`–`f`). -/
def isLowerHexDigit (c : Char) : Bool :=
  (48 ≤ c.toNat ∧ c.toNat ≤ 57) ∨ (97 ≤ c.toNat ∧ c.toNat ≤ 102)

lemma ne_colon_of_hex {c : Char} (h : isLowerHexDigit c = true) :
    (c != ':') = true := by
  rw [bne_iff_ne]
  intro he
  subst he
  exact absurd h (by decide)

lemma macOfGroups_cons :
    ∀ (gs : List (Char × Char)) (g : Char × Char),
      macOfGroups (g :: gs) =
        g.1 :: g.2 :: gs.flatMap (fun h => [':', h.1, h.2]) := by
  intro gs
  induction gs with
  | nil => intro g; rfl
  | cons h gs' ih =>
    intro g
    show g.1 :: g.2 :: ':' :: macOfGroups (h :: gs') = _
    rw [ih h]
    simp [List.flatMap_cons]

lemma filter_colon_runs (gs : List (Char × Char))
    (hhex : ∀ g ∈ gs, isLowerHexDigit g.1 = true ∧ isLowerHexDigit g.2 = true) :
    (gs.flatMap fun h => [':', h.1, h.2]).filter (fun c => c != ':') =
      gs.flatMap fun h => [h.1, h.2] := by
  induction gs with
  | nil => rfl
  | cons g gs' ih =>
    have hg := hhex g (List.mem_cons_self _ _)
    simp only [List.flatMap_cons]
    rw [List.filter_append, ih fun h hm => hhex h (List.mem_cons_of_mem _ hm)]
    congr 1
    simp [List.filter_cons, ne_colon_of_hex hg.1, ne_colon_of_hex hg.2]

lemma filter_pairs (gs : List (Char × Char))
    (hhex : ∀ g ∈ gs, isLowerHexDigit g.1 = true ∧ isLowerHexDigit g.2 = true) :
    (gs.flatMap fun h => [h.1, h.2]).filter (fun c => c != ':') =
      gs.flatMap fun h => [h.1, h.2] := by
  induction gs with
  | nil => rfl
  | cons g gs' ih =>
    have hg := hhex g (List.mem_cons_self _ _)
    simp only [List.flatMap_cons]
    rw [List.filter_append, ih fun h hm => hhex h (List.mem_cons_of_mem _ hm)]
    congr 1
    simp [List.filter_cons, ne_colon_of_hex hg.1, ne_colon_of_hex hg.2]

lemma decode_fold_even (gs : List (Char × Char)) :
    ∀ (n : Nat) (out : List Char), 1 ≤ n →
      (List.enumFrom (2 * n) (gs.flatMap fun g => [g.1, g.2])).foldl decodeStep
          out =
        out ++ gs.flatMap (fun g => [':', g.1, g.2]) := by
  induction gs with
  | nil => intro n out _; simp
  | cons g gs' ih =>
    intro n out hn
    simp only [List.flatMap_cons, List.cons_append, List.nil_append]
    rw [List.enumFrom, List.enumFrom]
    rw [List.foldl_cons, List.foldl_cons]
    have h1 : decodeStep out (2 * n, g.1) = out ++ [':', g.1] := by
      unfold decodeStep
      rw [if_pos ⟨by omega, by omega⟩]
      simp
    have h2 : decodeStep (out ++ [':', g.1]) (2 * n + 1, g.2) =
        out ++ [':', g.1, g.2] := by
      unfold decodeStep
      rw [if_neg (by omega)]
      simp
    rw [h1, h2, show 2 * n + 1 + 1 = 2 * (n + 1) from by omega,
      ih (n + 1) _ (by omega)]
    simp [List.append_assoc]

/-- C10: for every MAC made of two-lower-hex-digit groups separated by
single colons (the canonical client key form, e.g. `aa:bb:cc:dd:ee:ff`),
the tray menu-id round trip `decode_mac (encode_mac mac)` returns the
original string. -/
theorem C10_encode_decode_roundtrip (groups : List (Char × Char))
    (hne : groups ≠ [])
    (hhex : ∀ g ∈ groups,
      isLowerHexDigit g.1 = true ∧ isLowerHexDigit g.2 = true) :
    decode_mac (encode_mac (String.mk (macOfGroups groups))) =
      String.mk (macOfGroups groups) := by
  obtain ⟨g, gs, rfl⟩ := List.exists_cons_of_ne_nil hne
  have hg := hhex g (List.mem_cons_self _ _)
  have hgs : ∀ h ∈ gs, isLowerHexDigit h.1 = true ∧ isLowerHexDigit h.2 = true :=
    fun h hm => hhex h (List.mem_cons_of_mem _ hm)
  unfold encode_mac decode_mac
  rw [show (String.mk (macOfGroups (g :: gs))).data = macOfGroups (g :: gs)
    from rfl]
  rw [macOfGroups_cons]
  have hfilter :
      (g.1 :: g.2 :: gs.flatMap fun h => [':', h.1, h.2]).filter
          (fun c => c != ':') =
        g.1 :: g.2 :: (gs.flatMap fun h => [h.1, h.2]) := by
    rw [List.filter_cons, List.filter_cons]
    simp only [ne_colon_of_hex hg.1, ne_colon_of_hex hg.2, if_true]
    rw [filter_colon_runs gs hgs]
  rw [hfilter]
  rw [show (String.mk (g.1 :: g.2 :: (gs.flatMap fun h => [h.1, h.2]))).data =
    g.1 :: g.2 :: (gs.flatMap fun h => [h.1, h.2]) from rfl]
  have hfilter2 :
      (g.1 :: g.2 :: gs.flatMap fun h => [h.1, h.2]).filter (fun c => c != ':') =
        g.1 :: g.2 :: (gs.flatMap fun h => [h.1, h.2]) := by
    rw [List.filter_cons, List.filter_cons]
    simp only [ne_colon_of_hex hg.1, ne_colon_of_hex hg.2, if_true]
    rw [filter_pairs gs hgs]
  rw [hfilter2]
  show String.mk
      ((List.enumFrom 0 (g.1 :: g.2 :: gs.flatMap fun h => [h.1, h.2])).foldl
        decodeStep []) = _
  rw [List.enumFrom, List.enumFrom, List.foldl_cons, List.foldl_cons]
  have h1 : decodeStep [] (0, g.1) = [g.1] := by
    unfold decodeStep
    rw [if_neg (by omega)]
    rfl
  have h2 : decodeStep [g.1] (1, g.2) = [g.1, g.2] := by
    unfold decodeStep
    rw [if_neg (by omega)]
    rfl
  rw [h1, h2, show (0 : Nat) + 1 + 1 = 2 * 1 from rfl,
    decode_fold_even gs 1 [g.1, g.2] (by omega)]
  rw [show g.1 :: g.2 :: gs.flatMap (fun h => [':', h.1, h.2]) =
    [g.1, g.2] ++ gs.flatMap (fun h => [':', h.1, h.2]) from rfl]

/-- Witness for C10 at the canonical example `aa:bb:cc:dd:ee:ff`. -/
theorem C10_encode_decode_roundtrip_witness :
    decode_mac (encode_mac "aa:bb:cc:dd:ee:ff") = "aa:bb:cc:dd:ee:ff" :=
  C10_encode_decode_roundtrip
    [('a', 'a'), ('b', 'b'), ('c', 'c'), ('d', 'd'), ('e', 'e'), ('f', 'f')]
    (by decide) (by decide)

/-! ## MD5 and SHA-256 (models of the `md5` and `sha2` crates)

Pure implementations over byte lists, with 32-bit machine words as `Nat`
reduced modulo `2 ^ 32`.  The word-for-word algorithms are the standard
RFC 1321 / FIPS 180-4 ones that the crates implement; they are validated
in claim C3 against the standard test vectors. -/

def w32 : Nat := 4294967296

def not32 (a : Nat) : Nat := a ^^^ 4294967295

def rotl32 (x n : Nat) : Nat := ((x <<< n) % w32) ||| (x >>> (32 - n))

def rotr32 (x n : Nat) : Nat := (x >>> n) ||| ((x <<< (32 - n)) % w32)

def utf8EncodeChar (c : Char) : List Nat :=
  let n := c.toNat
  if n < 128 then [n]
  else if n < 2048 then [192 ||| (n >>> 6), 128 ||| (n &&& 63)]
  else if n < 65536 then
    [224 ||| (n >>> 12), 128 ||| ((n >>> 6) &&& 63), 128 ||| (n &&& 63)]
  else
    [240 ||| (n >>> 18), 128 ||| ((n >>> 12) &&& 63),
     128 ||| ((n >>> 6) &&& 63), 128 ||| (n &&& 63)]

def utf8Bytes (s : String) : List Nat := s.data.flatMap utf8EncodeChar

def leBytes4 (x : Nat) : List Nat :=
  [x % 256, x / 256 % 256, x / 65536 % 256, x / 16777216 % 256]

def beBytes4 (x : Nat) : List Nat :=
  [x / 16777216 % 256, x / 65536 % 256, x / 256 % 256, x % 256]

def leBytes8 (x : Nat) : List Nat := leBytes4 (x % w32) ++ leBytes4 (x / w32)

def beBytes8 (x : Nat) : List Nat := beBytes4 (x / w32) ++ beBytes4 (x % w32)

def chunks64 : Nat → List Nat → List (List Nat)
  | 0, _ => []
  | _, [] => []
  | fuel + 1, l => l.take 64 :: chunks64 fuel (l.drop 64)

def padTail (len : Nat) : List Nat :=
  [128] ++ List.replicate ((119 - len % 64) % 64) 0

def leWord (block : List Nat) (i : Nat) : Nat :=
  block.getD (4 * i) 0 + 256 * block.getD (4 * i + 1) 0 +
    65536 * block.getD (4 * i + 2) 0 + 16777216 * block.getD (4 * i + 3) 0

def beWord (block : List Nat) (i : Nat) : Nat :=
  block.getD (4 * i) 0 * 16777216 + block.getD (4 * i + 1) 0 * 65536 +
    block.getD (4 * i + 2) 0 * 256 + block.getD (4 * i + 3) 0

def md5K : List Nat :=
  [3614090360, 3905402710, 606105819, 3250441966, 4118548399, 1200080426, 2821735955, 4249261313,
   1770035416, 2336552879, 4294925233, 2304563134, 1804603682, 4254626195, 2792965006, 1236535329,
   4129170786, 3225465664, 643717713, 3921069994, 3593408605, 38016083, 3634488961, 3889429448,
   568446438, 3275163606, 4107603335, 1163531501, 2850285829, 4243563512, 1735328473, 2368359562,
   4294588738, 2272392833, 1839030562, 4259657740, 2763975236, 1272893353, 4139469664, 3200236656,
   681279174, 3936430074, 3572445317, 76029189, 3654602809, 3873151461, 530742520, 3299628645,
   4096336452, 1126891415, 2878612391, 4237533241, 1700485571, 2399980690, 4293915773, 2240044497,
   1873313359, 4264355552, 2734768916, 1309151649, 4149444226, 3174756917, 718787259, 3951481745]

def md5S : List Nat :=
  [7, 12, 17, 22, 7, 12, 17, 22, 7, 12, 17, 22, 7, 12, 17, 22,
   5, 9, 14, 20, 5, 9, 14, 20, 5, 9, 14, 20, 5, 9, 14, 20,
   4, 11, 16, 23, 4, 11, 16, 23, 4, 11, 16, 23, 4, 11, 16, 23,
   6, 10, 15, 21, 6, 10, 15, 21, 6, 10, 15, 21, 6, 10, 15, 21]

def md5Round (block : List Nat) (st : Nat × Nat × Nat × Nat) (i : Nat) :
    Nat × Nat × Nat × Nat :=
  let a := st.1
  let b := st.2.1
  let c := st.2.2.1
  let d := st.2.2.2
  let f :=
    if i < 16 then (b &&& c) ||| (not32 b &&& d)
    else if i < 32 then (d &&& b) ||| (not32 d &&& c)
    else if i < 48 then b ^^^ c ^^^ d
    else c ^^^ (b ||| not32 d)
  let g :=
    if i < 16 then i
    else if i < 32 then (5 * i + 1) % 16
    else if i < 48 then (3 * i + 5) % 16
    else (7 * i) % 16
  let tmp := (a + f + md5K.getD i 0 + leWord block g) % w32
  let nb := (b + rotl32 tmp (md5S.getD i 0)) % w32
  (d, nb, b, c)

def md5Block (st0 : Nat × Nat × Nat × Nat) (block : List Nat) :
    Nat × Nat × Nat × Nat :=
  let st := (List.range 64).foldl (md5Round block) st0
  ((st0.1 + st.1) % w32, (st0.2.1 + st.2.1) % w32,
   (st0.2.2.1 + st.2.2.1) % w32, (st0.2.2.2 + st.2.2.2) % w32)

def md5Bytes (msg : List Nat) : List Nat :=
  let padded := msg ++ padTail msg.length ++ leBytes8 ((msg.length * 8) % (w32 * w32))
  let st := (chunks64 padded.length padded).foldl md5Block
    (1732584193, 4023233417, 2562383102, 271733878)
  leBytes4 st.1 ++ leBytes4 st.2.1 ++ leBytes4 st.2.2.1 ++ leBytes4 st.2.2.2

def hexChar (n : Nat) : Char :=
  if n < 10 then Char.ofNat (48 + n) else Char.ofNat (87 + n)

def bytesToHex (bs : List Nat) : String :=
  String.mk (bs.flatMap fun b => [hexChar (b / 16), hexChar (b % 16)])

def md5Hex (s : String) : String := bytesToHex (md5Bytes (utf8Bytes s))

def sha256K : List Nat :=
  [1116352408, 1899447441, 3049323471, 3921009573, 961987163, 1508970993, 2453635748, 2870763221,
   3624381080, 310598401, 607225278, 1426881987, 1925078388, 2162078206, 2614888103, 3248222580,
   3835390401, 4022224774, 264347078, 604807628, 770255983, 1249150122, 1555081692, 1996064986,
   2554220882, 2821834349, 2952996808, 3210313671, 3336571891, 3584528711, 113926993, 338241895,
   666307205, 773529912, 1294757372, 1396182291, 1695183700, 1986661051, 2177026350, 2456956037,
   2730485921, 2820302411, 3259730800, 3345764771, 3516065817, 3600352804, 4094571909, 275423344,
   430227734, 506948616, 659060556, 883997877, 958139571, 1322822218, 1537002063, 1747873779,
   1955562222, 2024104815, 2227730452, 2361852424, 2428436474, 2756734187, 3204031479, 3329325298]

def sha256Schedule (block : List Nat) : List Nat :=
  (List.range 64).foldl (fun w i =>
    if i < 16 then w ++ [beWord block i]
    else
      let x15 := w.getD (i - 15) 0
      let x2 := w.getD (i - 2) 0
      let s0 := rotr32 x15 7 ^^^ rotr32 x15 18 ^^^ (x15 >>> 3)
      let s1 := rotr32 x2 17 ^^^ rotr32 x2 19 ^^^ (x2 >>> 10)
      w ++ [(w.getD (i - 16) 0 + s0 + w.getD (i - 7) 0 + s1) % w32]) []

def sha256Block (st : List Nat) (block : List Nat) : List Nat :=
  let w := sha256Schedule block
  let hs := (List.range 64).foldl (fun v i =>
    match v with
    | [a, b, c, d, e, f, g, h] =>
      let s1 := rotr32 e 6 ^^^ rotr32 e 11 ^^^ rotr32 e 25
      let ch := (e &&& f) ^^^ (not32 e &&& g)
      let temp1 := (h + s1 + ch + sha256K.getD i 0 + w.getD i 0) % w32
      let s0 := rotr32 a 2 ^^^ rotr32 a 13 ^^^ rotr32 a 22
      let maj := (a &&& b) ^^^ (a &&& c) ^^^ (b &&& c)
      let temp2 := (s0 + maj) % w32
      [(temp1 + temp2) % w32, a, b, c, (d + temp1) % w32, e, f, g]
    | other => other) st
  List.zipWith (fun x y => (x + y) % w32) st hs

def sha256Bytes (msg : List Nat) : List Nat :=
  let padded := msg ++ padTail msg.length ++ beBytes8 ((msg.length * 8) % (w32 * w32))
  let st := (chunks64 padded.length padded).foldl sha256Block
    [1779033703, 3144134277, 1013904242, 2773480762, 1359893119, 2600822924, 528734635, 1541459225]
  st.flatMap beBytes4

def sha256Hex (s : String) : String := bytesToHex (sha256Bytes (utf8Bytes s))


/-! ## The login handshake (`KeeneticRouter::login`) — claims C3 and C4 -/

/-- `RouterError` from `router-core/src/lib.rs`.  The `Request` transport
case is absorbed by the environment model (a transport failure aborts the
whole call before any classification happens), so the pure classification
only produces the two remaining cases. -/
inductive RouterError where
  | invalidResponse (msg : String) : RouterError
  | authFailed : RouterError

/-- Discriminator for the `InvalidResponse` case. -/
def RouterError.isInvalidResponse : RouterError → Bool
  | .invalidResponse _ => true
  | _ => false

/-- `reqwest::StatusCode::is_success()`: 200 ≤ s ≤ 299. -/
def isSuccessStatus (s : Nat) : Bool := 200 ≤ s ∧ s ≤ 299

/-- The observable HTTP exchange behind one `login()` call: the status
and the two `X-NDM-*` headers of the initial `GET /auth`, and the status
the router answers to the credential `POST /auth` with. -/
structure AuthExchange where
  initialStatus : Nat
  realmHeader : Option String
  challengeHeader : Option String
  postStatus : Nat

/-- `KeeneticRouter::login`: the pure core of the handshake.  Returns the
call's result together with the list of JSON bodies POSTed to `/auth`
(empty, or the one credential body). -/
def login (username password : String) (env : AuthExchange) :
    Except RouterError Unit × List Value :=
  if env.initialStatus = 401 then
    match env.realmHeader with
    | none => (.error (.invalidResponse "missing realm"), [])
    | some realm =>
      match env.challengeHeader with
      | none => (.error (.invalidResponse "missing challenge"), [])
      | some challenge =>
        let md5_hex := md5Hex (username ++ ":" ++ realm ++ ":" ++ password)
        let sha_hex := sha256Hex (challenge ++ md5_hex)
        let auth_data :=
          Value.obj [("login", .str username), ("password", .str sha_hex)]
        if isSuccessStatus env.postStatus then (.ok (), [auth_data])
        else (.error .authFailed, [auth_data])
  else if isSuccessStatus env.initialStatus then (.ok (), [])
  else
    (.error (.invalidResponse
      ("unexpected auth status: " ++ toString env.initialStatus)), [])

/-- C3: on an unauthorized initial `GET`, `login` POSTs exactly the body
`{login: username, password: hex(SHA256(challenge ++ hex(MD5("user:realm:password"))))}`
— the challenge concatenated directly in front of the MD5 hex with no
separator; the digest primitives agree with the standard test vectors,
and a fixed username/realm/password/challenge vector hashes to a fixed
literal hex string. -/
theorem C3_login_two_stage_digest :
    (∀ u realm p chal succ,
      (login u p { initialStatus := 401, realmHeader := some realm,
                   challengeHeader := some chal, postStatus := succ }).2 =
        [Value.obj [("login", .str u), ("password", .str
          (sha256Hex (chal ++ md5Hex (u ++ ":" ++ realm ++ ":" ++ p))))]]) ∧
    (login "admin" "secret" { initialStatus := 401,
                              realmHeader := some "Keenetic router",
                              challengeHeader := some "deadbeef",
                              postStatus := 200 }).2 =
      [Value.obj [("login", .str "admin"), ("password", .str
        "eb20b6b2decb195d434a3bf25235c042ac1d77fa0ddaa60a34c06d10a02fc214")]] ∧
    md5Hex "abc" = "900150983cd24fb0d6963f7d28e17f72" ∧
    sha256Hex "abc" =
      "ba7816bf8f01cfea414140de5dae2223b00361a396177a9cb410ff61f20015ad" := by
  refine ⟨?_, ?_, ?_, ?_⟩
  · intro u realm p chal succ
    cases hs : isSuccessStatus succ <;> simp [login, hs]
  · set_option maxRecDepth 40000 in rfl
  · set_option maxRecDepth 10000 in decide
  · set_option maxRecDepth 10000 in decide

/-- C4: `login` classifies outcomes exactly as: a success status on the
initial `GET` is success with no POST made; unauthorized with a missing
realm or challenge header is `InvalidResponse` (not `AuthFailed`);
unauthorized with both headers present succeeds iff the POST status is a
success and is `AuthFailed` otherwise; any other non-success initial
status is `InvalidResponse`, never `AuthFailed`. -/
theorem C4_login_outcome_classification (u p : String) (env : AuthExchange) :
    (isSuccessStatus env.initialStatus = true →
      login u p env = (.ok (), [])) ∧
    (env.initialStatus = 401 →
      (env.realmHeader = none ∨ env.challengeHeader = none) →
      (login u p env).2 = [] ∧
      ∃ msg, (login u p env).1 = .error (.invalidResponse msg)) ∧
    (env.initialStatus = 401 → ∀ realm chal,
      env.realmHeader = some realm → env.challengeHeader = some chal →
      ((isSuccessStatus env.postStatus = true → (login u p env).1 = .ok ()) ∧
       (isSuccessStatus env.postStatus = false →
         (login u p env).1 = .error .authFailed))) ∧
    (env.initialStatus ≠ 401 → isSuccessStatus env.initialStatus = false →
      (login u p env).2 = [] ∧
      ∃ msg, (login u p env).1 = .error (.invalidResponse msg)) := by
  obtain ⟨si, hr, hc, sp⟩ := env
  refine ⟨?_, ?_, ?_, ?_⟩
  · intro h
    have h401 : ¬si = 401 := by
      simp only [isSuccessStatus, decide_eq_true_eq] at h
      omega
    simp only [login, h401, if_false, h]
    simp
  · intro h401 hmiss
    subst h401
    rcases hmiss with hm | hm
    · have hm' : hr = none := hm
      subst hm'
      simp [login]
    · have hm' : hc = none := hm
      subst hm'
      cases hr with
      | none => simp [login]
      | some realm => simp [login]
  · intro h401 realm chal hre hch
    subst h401
    have hre' : hr = some realm := hre
    have hch' : hc = some chal := hch
    subst hre'
    subst hch'
    constructor
    · intro hp
      simp [login, hp]
    · intro hp
      simp [login, hp]
  · intro h401 hfail
    simp only [login, h401, if_false, hfail]
    simp

/-- Witness for C4: with a 401 plus both headers and an accepting POST
the call succeeds; a plain 200 needs no POST at all. -/
theorem C4_login_outcome_classification_witness :
    isSuccessStatus 200 = true ∧
    (login "admin" "pw" { initialStatus := 200, realmHeader := none,
                          challengeHeader := none, postStatus := 200 }) =
      (.ok (), []) ∧
    (login "admin" "pw" { initialStatus := 401, realmHeader := some "r",
                          challengeHeader := some "c",
                          postStatus := 204 }).1 = .ok () :=
  ⟨by decide,
   (C4_login_outcome_classification "admin" "pw"
     { initialStatus := 200, realmHeader := none, challengeHeader := none,
       postStatus := 200 }).1 (by decide),
   ((C4_login_outcome_classification "admin" "pw"
     { initialStatus := 401, realmHeader := some "r",
       challengeHeader := some "c", postStatus := 204 }).2.2.1 rfl "r" "c"
       rfl rfl).1 (by decide)⟩

/-! ## Mutation payloads (`apply_policy_to_client`, `set_client_block`) — claim C9 -/

/-- The keys of a JSON object payload, in construction order. -/
def Value.keyList : Value → List String
  | .obj fields => fields.map Prod.fst
  | _ => []

/-- The JSON body built by `KeeneticRouter::apply_policy_to_client`:
`{mac, policy: name-or-false, permit: true, schedule: false}`, where the
`policy` field is the string name, or the boolean `false` when the policy
argument is `None` (restore default). -/
def apply_policy_to_client_payload (mac : String) (policy : Option String) :
    Value :=
  let policy_value := match policy with
    | some name => Value.str name
    | none => Value.bool false
  .obj [("mac", .str mac), ("policy", policy_value), ("permit", .bool true),
        ("schedule", .bool false)]

/-- The JSON body built by `KeeneticRouter::set_client_block`:
`{mac, schedule: false, deny: true}`. -/
def set_client_block_payload (mac : String) : Value :=
  .obj [("mac", .str mac), ("schedule", .bool false), ("deny", .bool true)]

/-- C9: `apply_policy_to_client` posts exactly the object with keys
`mac`, `policy`, `permit`, `schedule`, where `policy` is the JSON string
of the name when given and the JSON boolean `false` when absent,
`permit` is `true` and `schedule` is `false`; `set_client_block` posts
exactly `{mac, schedule: false, deny: true}`. -/
theorem C9_mutation_payloads (mac : String) :
    (∀ policy : Option String,
      (apply_policy_to_client_payload mac policy).keyList =
        ["mac", "policy", "permit", "schedule"] ∧
      (apply_policy_to_client_payload mac policy).get "mac" =
        some (.str mac) ∧
      (apply_policy_to_client_payload mac policy).get "permit" =
        some (.bool true) ∧
      (apply_policy_to_client_payload mac policy).get "schedule" =
        some (.bool false)) ∧
    (∀ name : String,
      (apply_policy_to_client_payload mac (some name)).get "policy" =
        some (.str name)) ∧
    (apply_policy_to_client_payload mac none).get "policy" =
      some (.bool false) ∧
    (set_client_block_payload mac).keyList = ["mac", "schedule", "deny"] ∧
    (set_client_block_payload mac).get "mac" = some (.str mac) ∧
    (set_client_block_payload mac).get "schedule" = some (.bool false) ∧
    (set_client_block_payload mac).get "deny" = some (.bool true) := by
  refine ⟨?_, fun name => rfl, rfl, rfl, rfl, rfl, rfl⟩
  intro policy
  cases policy <;> exact ⟨rfl, rfl, rfl, rfl⟩

/-! ## Network matching and active-router selection — claim C2 -/

/-- `RouterInfo` from `router-core/src/lib.rs`. -/
structure RouterInfo where
  name : String
  address : String
  login : String
  network_ip : Option String
  keendns_urls : Option (List String)

/-- Model of `ipnetwork::Ipv4Network`: a 32-bit network address and a
prefix length. -/
structure Ipv4Network where
  addr : Nat
  prefixLen : Nat

/-- `Ipv4Network::contains`: the address agrees with the network on the
first `prefixLen` bits. -/
def Ipv4Network.contains (net : Ipv4Network) (addr : Nat) : Bool :=
  addr >>> (32 - net.prefixLen) = net.addr >>> (32 - net.prefixLen)

/-- Parse one decimal octet as Rust `core::net` does: 1–3 digits, no
leading zero (except `"0"` itself), value ≤ 255. -/
def parseOctet (s : List Char) : Option Nat :=
  if s = [] then none
  else if s.any (fun c => !c.isDigit) then none
  else if s.length > 3 then none
  else if s.length > 1 ∧ s.headD '0' = '0' then none
  else
    let v := s.foldl (fun acc c => acc * 10 + (c.toNat - 48)) 0
    if v ≤ 255 then some v else none

/-- Parse a dotted-quad IPv4 address (the V4 case of
`str::parse::<IpAddr>`; a V6 address would never be contained in the
V4-only local network list, so mapping non-V4 inputs to `none` is
observationally the same). -/
def parseIpv4 (s : String) : Option Nat :=
  match (s.data.splitOn '.').map parseOctet with
  | [some a, some b, some c, some d] =>
    some (((a * 256 + b) * 256 + c) * 256 + d)
  | _ => none

/-- `ip_in_networks` from `router-core/src/lib.rs`. -/
def ip_in_networks (ip : String) (networks : List Ipv4Network) : Bool :=
  match parseIpv4 ip with
  | some addr => networks.any (fun net => net.contains addr)
  | none => false

/-- `extract_host` from `router-core/src/lib.rs`: trim, drop everything
through `"://"` if present, cut at the first `'/'`. -/
def extract_host (address : String) : String :=
  let value := (rustTrim address).data
  let value := match (List.range (value.length + 1)).find?
      (fun i => "://".data.isPrefixOf (value.drop i)) with
    | some pos => value.drop (pos + 3)
    | none => value
  String.mk (value.takeWhile (fun c => c != '/'))

/-- The environment of `build_active_state`: the machine's local IPv4
networks (`local_networks()`), the credential store (`get_password`),
whether a login against a normalized base URL with given credentials
succeeds, and whether the post-login data fetches succeed. -/
structure NetEnv where
  networks : List Ipv4Network
  getPassword : String → Option String
  loginOk : String → String → String → Bool
  fetchOk : String → Bool

/-- The body of the candidate-building loop in `build_active_state`:
push `(router, network_ip)` when the stored `network_ip` is local,
else `(router, address)` when the extracted host is non-empty and
local, else skip. -/
def candStep (networks : List Ipv4Network)
    (cands : List (RouterInfo × String)) (router : RouterInfo) :
    List (RouterInfo × String) :=
  match router.network_ip with
  | some ip =>
    if ip_in_networks ip networks then cands ++ [(router, ip)]
    else if extract_host router.address ≠ "" ∧
        ip_in_networks (extract_host router.address) networks then
      cands ++ [(router, router.address)]
    else cands
  | none =>
    if extract_host router.address ≠ "" ∧
        ip_in_networks (extract_host router.address) networks then
      cands ++ [(router, router.address)]
    else cands

/-- The candidate list of `build_active_state`, in input order. -/
def buildCandidates (routers : List RouterInfo)
    (networks : List Ipv4Network) : List (RouterInfo × String) :=
  routers.foldl (candStep networks) []

/-- Modelled from the spec: the per-router candidate rule — prefer the
router's `network_ip` when it lies in a local subnet, else fall back to
its configured `address` when the extracted host lies in a local subnet,
else no candidate. -/
def specCandidate (networks : List Ipv4Network) (router : RouterInfo) :
    Option (RouterInfo × String) :=
  match router.network_ip with
  | some ip =>
    if ip_in_networks ip networks then some (router, ip)
    else if extract_host router.address ≠ "" ∧
        ip_in_networks (extract_host router.address) networks then
      some (router, router.address)
    else none
  | none =>
    if extract_host router.address ≠ "" ∧
        ip_in_networks (extract_host router.address) networks then
      some (router, router.address)
    else none

/-- Whether the selection loop's login attempt at candidate `c` would
succeed: a password is stored and the login (against the normalized base
URL that `KeeneticRouter::new` builds) is accepted. -/
def attemptWins (env : NetEnv) (c : RouterInfo × String) : Bool :=
  match env.getPassword c.1.name with
  | some pw => env.loginOk (newBaseUrl c.2) c.1.login pw
  | none => false

/-- Modelled from the spec: the first candidate, in order, whose login
succeeds (candidates without a stored password are skipped). -/
def specFirstWinner (env : NetEnv) (cands : List (RouterInfo × String)) :
    Option (RouterInfo × String) :=
  cands.find? (attemptWins env)

/-- The candidate loop of `build_active_state`: candidates without a
stored password are skipped, a failed login skips to the next candidate,
the first successful login wins (a post-login fetch failure aborts the
whole call via `?`).  Also returns the trace of login attempts as
`(name, address)` pairs. -/
def tryCandidates (env : NetEnv) :
    List (RouterInfo × String) →
      Except Unit (Option (RouterInfo × String)) × List (String × String)
  | [] => (.ok none, [])
  | (router, addr) :: rest =>
    match env.getPassword router.name with
    | none => tryCandidates env rest
    | some pw =>
      if env.loginOk (newBaseUrl addr) router.login pw then
        if env.fetchOk (newBaseUrl addr) then
          (.ok (some (router, addr)), [(router.name, addr)])
        else (.error (), [(router.name, addr)])
      else
        let r := tryCandidates env rest
        (r.1, (router.name, addr) :: r.2)

/-- The selection core of `build_active_state` from `main.rs`:
`Ok(None)` for an empty router list, otherwise the candidate loop over
the subnet-matched candidates. -/
def build_active_state (env : NetEnv) (routers : List RouterInfo) :
    Except Unit (Option (RouterInfo × String)) × List (String × String) :=
  if routers.isEmpty then (.ok none, [])
  else tryCandidates env (buildCandidates routers env.networks)

lemma candStep_eq (networks : List Ipv4Network)
    (cands : List (RouterInfo × String)) (router : RouterInfo) :
    candStep networks cands router =
      cands ++ (specCandidate networks router).toList := by
  cases h : router.network_ip with
  | none =>
    simp only [candStep, specCandidate, h]
    split <;> simp
  | some ip =>
    simp only [candStep, specCandidate, h]
    by_cases h1 : ip_in_networks ip networks = true
    · simp [h1]
    · simp only [h1, Bool.false_eq_true, if_false]
      split <;> simp

lemma foldl_candStep (networks : List Ipv4Network) (routers : List RouterInfo) :
    ∀ acc : List (RouterInfo × String),
      routers.foldl (candStep networks) acc =
        acc ++ routers.filterMap (specCandidate networks) := by
  induction routers with
  | nil => intro acc; simp
  | cons r rs ih =>
    intro acc
    rw [List.foldl_cons, ih, candStep_eq, List.filterMap_cons]
    cases h : specCandidate networks r <;> simp [h]

lemma tryCandidates_result_fetchOk (env : NetEnv)
    (hfetch : ∀ a, env.fetchOk a = true) :
    ∀ cands : List (RouterInfo × String),
      (tryCandidates env cands).1 = .ok (specFirstWinner env cands) := by
  intro cands
  induction cands with
  | nil => rfl
  | cons c rest ih =>
    obtain ⟨router, addr⟩ := c
    cases hp : env.getPassword router.name with
    | none =>
      have ha : attemptWins env (router, addr) = false := by
        simp [attemptWins, hp]
      simp only [tryCandidates, hp, specFirstWinner, List.find?_cons, ha,
        Bool.false_eq_true]
      exact ih
    | some pw =>
      cases hl : env.loginOk (newBaseUrl addr) router.login pw with
      | true =>
        have ha : attemptWins env (router, addr) = true := by
          simp [attemptWins, hp, hl]
        simp [tryCandidates, hp, hl, hfetch (newBaseUrl addr),
          specFirstWinner, List.find?_cons, ha]
      | false =>
        have ha : attemptWins env (router, addr) = false := by
          simp [attemptWins, hp, hl]
        simp only [tryCandidates, hp, hl, specFirstWinner, List.find?_cons,
          ha, Bool.false_eq_true, if_false]
        exact ih

lemma tryCandidates_none (env : NetEnv) :
    ∀ cands : List (RouterInfo × String),
      specFirstWinner env cands = none →
      (tryCandidates env cands).1 = .ok none := by
  intro cands
  induction cands with
  | nil => intro _; rfl
  | cons c rest ih =>
    obtain ⟨router, addr⟩ := c
    intro hw
    unfold specFirstWinner at hw
    rw [List.find?_cons] at hw
    cases hp : env.getPassword router.name with
    | none =>
      have ha : attemptWins env (router, addr) = false := by
        simp [attemptWins, hp]
      rw [ha] at hw
      simp only [tryCandidates, hp]
      exact ih hw
    | some pw =>
      cases hl : env.loginOk (newBaseUrl addr) router.login pw with
      | true =>
        have ha : attemptWins env (router, addr) = true := by
          simp [attemptWins, hp, hl]
        rw [ha] at hw
        simp at hw
      | false =>
        have ha : attemptWins env (router, addr) = false := by
          simp [attemptWins, hp, hl]
        rw [ha] at hw
        simp only [tryCandidates, hp, hl, Bool.false_eq_true, if_false]
        exact ih hw

lemma tryCandidates_attempts_mem (env : NetEnv) :
    ∀ (cands : List (RouterInfo × String)) (p : String × String),
      p ∈ (tryCandidates env cands).2 →
      ∃ c ∈ cands, p = (c.1.name, c.2) := by
  intro cands
  induction cands with
  | nil => intro p hp; simp [tryCandidates] at hp
  | cons c rest ih =>
    obtain ⟨router, addr⟩ := c
    intro p hp
    cases hpw : env.getPassword router.name with
    | none =>
      simp only [tryCandidates, hpw] at hp
      obtain ⟨c', hc', he⟩ := ih p hp
      exact ⟨c', List.mem_cons_of_mem _ hc', he⟩
    | some pw =>
      cases hl : env.loginOk (newBaseUrl addr) router.login pw with
      | true =>
        cases hf : env.fetchOk (newBaseUrl addr) with
        | true =>
          simp only [tryCandidates, hpw, hl, hf, if_true,
            List.mem_singleton] at hp
          exact ⟨(router, addr), List.mem_cons_self _ _, hp⟩
        | false =>
          simp only [tryCandidates, hpw, hl, hf, if_true,
            Bool.false_eq_true, if_false, List.mem_singleton] at hp
          exact ⟨(router, addr), List.mem_cons_self _ _, hp⟩
      | false =>
        simp only [tryCandidates, hpw, hl, Bool.false_eq_true, if_false,
          List.mem_cons] at hp
        rcases hp with hp | hp
        · exact ⟨(router, addr), List.mem_cons_self _ _, hp⟩
        · obtain ⟨c', hc', he⟩ := ih p hp
          exact ⟨c', List.mem_cons_of_mem _ hc', he⟩

lemma tryCandidates_trace (env : NetEnv) :
    ∀ cands : List (RouterInfo × String),
      (tryCandidates env cands).2 =
        match specFirstWinner env cands with
        | some w =>
          ((cands.filter fun c => (env.getPassword c.1.name).isSome).takeWhile
            (fun c => !attemptWins env c)).map (fun c => (c.1.name, c.2)) ++
            [(w.1.name, w.2)]
        | none =>
          (cands.filter fun c => (env.getPassword c.1.name).isSome).map
            (fun c => (c.1.name, c.2)) := by
  intro cands
  induction cands with
  | nil => rfl
  | cons c rest ih =>
    obtain ⟨router, addr⟩ := c
    cases hp : env.getPassword router.name with
    | none =>
      have ha : attemptWins env (router, addr) = false := by
        simp [attemptWins, hp]
      simp only [tryCandidates, hp, specFirstWinner, List.find?_cons, ha,
        Bool.false_eq_true, List.filter_cons, Option.isSome_none, if_false]
      exact ih
    | some pw =>
      cases hl : env.loginOk (newBaseUrl addr) router.login pw with
      | true =>
        have ha : attemptWins env (router, addr) = true := by
          simp [attemptWins, hp, hl]
        cases hf : env.fetchOk (newBaseUrl addr) with
        | true =>
          simp [tryCandidates, hp, hl, hf, specFirstWinner, List.find?_cons,
            ha, List.filter_cons, List.takeWhile_cons]
        | false =>
          simp [tryCandidates, hp, hl, hf, specFirstWinner, List.find?_cons,
            ha, List.filter_cons, List.takeWhile_cons]
      | false =>
        have ha : attemptWins env (router, addr) = false := by
          simp [attemptWins, hp, hl]
        simp only [tryCandidates, hp, hl, Bool.false_eq_true, if_false,
          specFirstWinner, List.find?_cons, ha, List.filter_cons,
          Option.isSome_some, if_true, List.takeWhile_cons, Bool.not_false]
        rw [ih]
        unfold specFirstWinner
        cases hw : List.find? (attemptWins env) rest <;> simp

/-- C2: the candidate list equals, in input order, the per-router spec
rule (network_ip-in-subnet preferred, else configured address when its
extracted host is in a subnet, else skipped); the selection result is the
first candidate with a stored password whose login succeeds (when the
post-login fetches succeed), an absent active state — not an error — when
no candidate authenticates, every login attempt is made against a
subnet-matched candidate, and the attempt trace stops exactly at the
winner. -/
theorem C2_active_router_selection (env : NetEnv)
    (routers : List RouterInfo) :
    buildCandidates routers env.networks =
      routers.filterMap (specCandidate env.networks) ∧
    ((∀ a, env.fetchOk a = true) →
      (build_active_state env routers).1 =
        .ok (specFirstWinner env (buildCandidates routers env.networks))) ∧
    (specFirstWinner env (buildCandidates routers env.networks) = none →
      (build_active_state env routers).1 = .ok none) ∧
    (∀ p ∈ (build_active_state env routers).2,
      ∃ c ∈ buildCandidates routers env.networks, p = (c.1.name, c.2)) ∧
    (build_active_state env routers).2 =
      (match specFirstWinner env (buildCandidates routers env.networks) with
       | some w =>
         (((buildCandidates routers env.networks).filter
             (fun c => (env.getPassword c.1.name).isSome)).takeWhile
           (fun c => !attemptWins env c)).map (fun c => (c.1.name, c.2)) ++
           [(w.1.name, w.2)]
       | none =>
         ((buildCandidates routers env.networks).filter
             (fun c => (env.getPassword c.1.name).isSome)).map
           (fun c => (c.1.name, c.2))) := by
  have hc : buildCandidates routers env.networks =
      routers.filterMap (specCandidate env.networks) :=
    foldl_candStep env.networks routers []
  by_cases hempty : routers.isEmpty = true
  · have hnil : routers = [] := List.isEmpty_iff.mp hempty
    subst hnil
    refine ⟨rfl, ?_, ?_, ?_, rfl⟩
    · intro _; rfl
    · intro _; rfl
    · intro p hp
      simp [build_active_state] at hp
  · have hstate : build_active_state env routers =
        tryCandidates env (buildCandidates routers env.networks) := by
      unfold build_active_state
      rw [if_neg (by simp [hempty])]
    refine ⟨hc, ?_, ?_, ?_, ?_⟩
    · intro hfetch
      rw [hstate]
      exact tryCandidates_result_fetchOk env hfetch _
    · intro hw
      rw [hstate]
      exact tryCandidates_none env _ hw
    · intro p hp
      rw [hstate] at hp
      exact tryCandidates_attempts_mem env _ p hp
    · rw [hstate]
      exact tryCandidates_trace env _

/-- The spec's selection scenario: router R1 matches no local subnet,
R2 and R3 do, and only R3's credentials authenticate. -/
def c2r1 : RouterInfo :=
  { name := "R1", address := "10.0.0.1", login := "admin",
    network_ip := none, keendns_urls := none }

/-- Second configured router: host in the local subnet, wrong password. -/
def c2r2 : RouterInfo :=
  { name := "R2", address := "192.168.1.2", login := "admin",
    network_ip := none, keendns_urls := none }

/-- Third configured router: last-known network_ip in the local subnet,
authenticating. -/
def c2r3 : RouterInfo :=
  { name := "R3", address := "r3.example.com", login := "admin",
    network_ip := some "192.168.1.3", keendns_urls := none }

/-- Environment for the scenario: one local /24, passwords for everyone,
only R3's base URL authenticates, fetches always succeed. -/
def c2Env : NetEnv :=
  { networks := [{ addr := 3232235776, prefixLen := 24 }],
    getPassword := fun _ => some "pw",
    loginOk := fun a _ _ => a == "http://192.168.1.3",
    fetchOk := fun _ => true }

/-- Witness for C2 at the spec's scenario: R3 wins, the attempt trace is
exactly R2 then R3 — zero login attempts against R1. -/
theorem C2_active_router_selection_witness :
    (∀ a, c2Env.fetchOk a = true) ∧
    buildCandidates [c2r1, c2r2, c2r3] c2Env.networks =
      [(c2r2, "192.168.1.2"), (c2r3, "192.168.1.3")] ∧
    (build_active_state c2Env [c2r1, c2r2, c2r3]).1 =
      .ok (some (c2r3, "192.168.1.3")) ∧
    (build_active_state c2Env [c2r1, c2r2, c2r3]).2 =
      [("R2", "192.168.1.2"), ("R3", "192.168.1.3")] :=
  ⟨fun _ => rfl, rfl,
   by
    rw [(C2_active_router_selection c2Env [c2r1, c2r2, c2r3]).2.1
      (fun _ => rfl)]
    rfl,
   by
    rw [(C2_active_router_selection c2Env [c2r1, c2r2, c2r3]).2.2.2.2]
    rfl⟩

/-! ## The two empty outcomes (`build_active_state` / `build_tray_menu`) — claim C8 -/

/-- `PolicyInfo` from `router-core/src/lib.rs`. -/
structure PolicyInfo where
  description : Option String

/-- `InterfaceInfo` from `router-core/src/lib.rs`. -/
structure InterfaceInfo where
  name : String
  display_name : String
  mac : String
  ip : String
  iface_type : String
  online : Bool
  policy : Option String
  deny : Bool

/-- `ActiveState` from `main.rs` (the policy `HashMap` is modelled as an
association list in iteration order). -/
structure ActiveState where
  router : RouterInfo
  interfaces : List InterfaceInfo
  policies : List (String × PolicyInfo)
  active_iface : Option InterfaceInfo
  active_address : String

/-- A tray menu entry: a disabled info line, a clickable custom item, a
separator, or a submenu. -/
inductive MenuItem where
  | info (id title : String) : MenuItem
  | item (id title : String) : MenuItem
  | sep : MenuItem
  | submenu (title : String) (items : List MenuItem) : MenuItem

/-- `policy_label` from `main.rs`. -/
def policy_label (policy : Option String) (deny : Bool)
    (policies : List (String × PolicyInfo)) : String :=
  if deny then "Blocked"
  else match policy with
  | none => "Default"
  | some key =>
    match policies.lookup key with
    | some info =>
      match info.description with
      | some desc => desc
      | none => key
    | none => key

/-- `info_item` from `main.rs`: a disabled menu item. -/
def info_item (id title : String) : MenuItem := .info id title

/-- `append_interface_section` from `main.rs`. -/
def append_interface_section (menu : List MenuItem) (iface : InterfaceInfo)
    (policies : List (String × PolicyInfo)) (pre : String)
    (with_header : Bool) : List MenuItem :=
  let menu := if with_header then
      menu ++ [info_item (pre ++ ":header") iface.display_name]
    else menu
  let menu := menu ++ [info_item (pre ++ ":iface")
    ("Interface: " ++ iface.name)]
  let menu := menu ++ [info_item (pre ++ ":ip") ("IP: " ++ iface.ip)]
  let menu := menu ++ [info_item (pre ++ ":mac") ("MAC: " ++ iface.mac)]
  let menu := menu ++ [info_item (pre ++ ":type")
    ("Type: " ++ iface.iface_type)]
  let state := if iface.online then "Online" else "Offline"
  let menu := menu ++ [info_item (pre ++ ":state") ("State: " ++ state)]
  let menu := menu ++ [.sep]
  let current_label := policy_label iface.policy iface.deny policies
  let mac_encoded := encode_mac iface.mac
  let default_label :=
    if current_label = "Default" then "• Default" else "Default"
  let blocked_label :=
    if current_label = "Blocked" then "• Blocked" else "Blocked"
  let menu := menu ++
    [.item ("policy|" ++ mac_encoded ++ "|default") default_label]
  let menu := menu ++
    [.item ("policy|" ++ mac_encoded ++ "|blocked") blocked_label]
  menu ++ policies.map (fun p =>
    let label := (p.2.description).getD p.1
    let title := if label = current_label then "• " ++ label else label
    .item ("policy|" ++ mac_encoded ++ "|set|" ++ p.1) title)

/-- `build_tray_menu` from `main.rs`: the no-routers menu, the
no-reachable-router menu, or the full interface menu. -/
def build_tray_menu (state : Option ActiveState) (has_routers : Bool) :
    List MenuItem :=
  if !has_routers then
    [info_item "info:no_routers" "No routers configured.", .sep,
     .item "add_router" "Add Router...", .item "quit" "Quit"]
  else
    match state with
    | none =>
      [info_item "info:none" "No available routers in the current network.",
       .sep, .item "add_router" "Add Router...",
       .item "settings" "Settings...", .item "refresh" "Refresh",
       .item "quit" "Quit"]
    | some active =>
      let menu : List MenuItem := []
      let menu := match active.active_iface with
        | some active_iface =>
          (append_interface_section menu active_iface active.policies
            ("iface" ++ encode_mac active_iface.mac) true) ++ [.sep]
        | none => menu
      let menu := menu ++ (active.interfaces.filter (fun iface =>
          match active.active_iface with
          | some ai => iface.mac != ai.mac
          | none => true)).map (fun iface =>
        MenuItem.submenu iface.display_name
          (append_interface_section [] iface active.policies
            ("iface" ++ encode_mac iface.mac) false))
      menu ++ [.sep,
        info_item "router:name" ("Router: " ++ active.router.name), .sep,
        .item "settings" "Settings...", .item "refresh" "Refresh",
        .item "quit" "Quit"]

/-- A router whose address matches no local subnet. -/
def c8Router : RouterInfo :=
  { name := "R", address := "10.0.0.1", login := "admin",
    network_ip := none, keendns_urls := none }

/-- An environment with no local networks at all. -/
def c8Env : NetEnv :=
  { networks := [], getPassword := fun _ => some "pw",
    loginOk := fun _ _ _ => false, fetchOk := fun _ => true }

/-- C8 counterexample: the pipeline result itself does NOT distinguish
the two empty outcomes — an empty router list and a configured but
unreachable router produce the very same `Ok(None)` value, refuting "the
absence meaning no router is currently reachable is a distinct value from
the absence meaning no routers are configured". -/
theorem C8_result_values_counterexample :
    build_active_state c8Env [] = build_active_state c8Env [c8Router] ∧
    (build_active_state c8Env []).1 = .ok none :=
  ⟨rfl, rfl⟩

/-- C8 (amended): the pipeline result is the same `Ok(None)` in both
empty cases; the presentation layer distinguishes them through the
separate `has_routers` flag passed to `build_tray_menu` alongside the
result, which renders two different menus ("No routers configured."
versus "No available routers in the current network."). -/
theorem C8_empty_outcomes_amended :
    (∀ env : NetEnv, build_active_state env [] = (.ok none, [])) ∧
    build_tray_menu none false =
      [MenuItem.info "info:no_routers" "No routers configured.",
       MenuItem.sep, MenuItem.item "add_router" "Add Router...",
       MenuItem.item "quit" "Quit"] ∧
    build_tray_menu none true =
      [MenuItem.info "info:none"
        "No available routers in the current network.",
       MenuItem.sep, MenuItem.item "add_router" "Add Router...",
       MenuItem.item "settings" "Settings...",
       MenuItem.item "refresh" "Refresh", MenuItem.item "quit" "Quit"] :=
  ⟨fun _ => rfl, rfl, rfl⟩
